import Mathlib

/-!
Verification of the earthquake-feed cache module (`main.py`).

The development shallowly embeds the program's pure logic and its
environment interactions:

* a JSON value model `JVal` with a serializer `json_dumps` following the
  defaults of Python's `json.dump` (item separator ", ", key separator
  ": ", integers in decimal) and a parser `json_loads` following
  `json.load` on the fragment the program exercises (whitespace between
  tokens, the two escapes the serializer emits).  Model restrictions:
  numbers are integers (floating point is out of scope), string content
  is taken verbatim apart from the escapes for the quote and backslash
  characters;
* the MD5 digest (RFC 1321) used by `get_cache_filename`, computed over
  the code points of the URL (URLs here are ASCII, where UTF-8 bytes and
  code points coincide);
* a filesystem/network environment: an association list of files with
  modification times, flags for read/write faults, a current time, and a
  network oracle mapping a URL to an outcome;
* the four functions of `main.py`: `ensure_cache_dir`,
  `get_cache_filename`, `is_cache_valid`, `fetch_earthquake_data`, and
  `get_available_feeds`, translated line by line.
-/

/-! ## JSON values -/

/-- JSON values as Python's `json` module produces them for this program:
null, booleans, integers, strings, arrays, objects. -/
inductive JVal where
  | null : JVal
  | bool (b : Bool) : JVal
  | num (n : Int) : JVal
  | str (s : List Char) : JVal
  | arr (elems : List JVal) : JVal
  | obj (members : List (List Char × JVal)) : JVal

/-- Opening brace character. -/
def lbrace : Char := Char.ofNat 123

/-- Closing brace character. -/
def rbrace : Char := Char.ofNat 125

/-- Decimal digit character for a digit value. -/
def decDigit (d : Nat) : Char := Char.ofNat (48 + d)

/-- Little-endian decimal digits of a natural number, with fuel. -/
def natDigitsLE : Nat → Nat → List Nat
  | 0, _ => []
  | fuel + 1, n => if n = 0 then [] else n % 10 :: natDigitsLE fuel (n / 10)

/-- Decimal notation of a natural number, as Python's `str` writes it. -/
def natToDigits (n : Nat) : List Char :=
  if n = 0 then [decDigit 0] else ((natDigitsLE (n + 1) n).reverse).map decDigit

/-- Decimal notation of an integer, as Python's `str` writes it. -/
def intToDigits (n : Int) : List Char :=
  if n < 0 then '-' :: natToDigits n.natAbs else natToDigits n.toNat

/-- Escape one character the way `json.dump` escapes string content
(the model covers the quote and backslash escapes, which are the only
ones the serializer needs for the data in this development). -/
def escChar (c : Char) : List Char :=
  if c = '"' then ['\\', '"'] else if c = '\\' then ['\\', '\\'] else [c]

/-- Escape a whole string body. -/
def escapeStr (s : List Char) : List Char := (s.map escChar).flatten

mutual
/-- Serialize a JSON value exactly as `json.dump(data, f)` writes it with
its default separators. -/
def dumpV : JVal → List Char
  | .null => 'n' :: 'u' :: 'l' :: 'l' :: []
  | .bool true => 't' :: 'r' :: 'u' :: 'e' :: []
  | .bool false => 'f' :: 'a' :: 'l' :: 's' :: 'e' :: []
  | .num n => intToDigits n
  | .str s => '"' :: escapeStr s ++ ['"']
  | .arr [] => '[' :: ']' :: []
  | .arr (v :: vs) => '[' :: (dumpV v ++ dumpElems vs) ++ [']']
  | .obj [] => lbrace :: rbrace :: []
  | .obj (m :: ms) => lbrace :: (dumpMember m ++ dumpMembers ms) ++ [rbrace]

/-- Serialize one object member as `"key": value`. -/
def dumpMember : List Char × JVal → List Char
  | (k, v) => '"' :: escapeStr k ++ '"' :: ':' :: ' ' :: dumpV v

/-- Serialize the tail elements of an array, each preceded by ", ". -/
def dumpElems : List JVal → List Char
  | [] => []
  | v :: vs => ',' :: ' ' :: (dumpV v ++ dumpElems vs)

/-- Serialize the tail members of an object, each preceded by ", ". -/
def dumpMembers : List (List Char × JVal) → List Char
  | [] => []
  | m :: ms => ',' :: ' ' :: (dumpMember m ++ dumpMembers ms)
end

/-- String form of `json.dump` output. -/
def json_dumps (v : JVal) : String := ⟨dumpV v⟩

/-! ## JSON parsing -/

/-- JSON insignificant whitespace. -/
def isWs (c : Char) : Bool := decide (c.toNat = 32 ∨ c.toNat = 9 ∨ c.toNat = 10 ∨ c.toNat = 13)

/-- Decimal digit test. -/
def isDigit (c : Char) : Bool := decide (48 ≤ c.toNat ∧ c.toNat ≤ 57)

/-- Numeric value of a digit character. -/
def digitVal (c : Char) : Nat := c.toNat - 48

/-- Skip insignificant whitespace. -/
def skipWs : List Char → List Char
  | [] => []
  | c :: cs => if isWs c then skipWs cs else c :: cs

/-- Split off the longest digit prefix. -/
def takeDigits : List Char → List Char × List Char
  | [] => ([], [])
  | c :: cs =>
    if isDigit c then
      let p := takeDigits cs
      (c :: p.1, p.2)
    else ([], c :: cs)

/-- Value of a digit run, most significant first. -/
def digitsToNat (ds : List Char) : Nat :=
  ds.foldl (fun a c => 10 * a + digitVal c) 0

/-- Parse a JSON string body after the opening quote, up to the closing
quote, resolving the escapes the serializer emits. -/
def parseStrBody : List Char → Option (List Char × List Char)
  | [] => none
  | c :: cs =>
    if c = '"' then some ([], cs)
    else if c = '\\' then
      match cs with
      | [] => none
      | e :: cs2 => (parseStrBody cs2).map fun p => (e :: p.1, p.2)
    else (parseStrBody cs).map fun p => (c :: p.1, p.2)

mutual
/-- Parse one JSON value, fuel-bounded; models `json.load` on the
fragment this program exercises. -/
def parseVal : Nat → List Char → Option (JVal × List Char)
  | 0, _ => none
  | fuel + 1, input =>
    match skipWs input with
    | [] => none
    | c :: cs =>
      if c = 'n' then
        match cs with
        | 'u' :: 'l' :: 'l' :: rest => some (.null, rest)
        | _ => none
      else if c = 't' then
        match cs with
        | 'r' :: 'u' :: 'e' :: rest => some (.bool true, rest)
        | _ => none
      else if c = 'f' then
        match cs with
        | 'a' :: 'l' :: 's' :: 'e' :: rest => some (.bool false, rest)
        | _ => none
      else if c = '"' then
        (parseStrBody cs).map fun p => (JVal.str p.1, p.2)
      else if c = '[' then
        match skipWs cs with
        | [] => none
        | d :: ds =>
          if d = ']' then some (.arr [], ds)
          else (parseElems fuel (d :: ds)).map fun p => (JVal.arr p.1, p.2)
      else if c = lbrace then
        match skipWs cs with
        | [] => none
        | d :: ds =>
          if d = rbrace then some (.obj [], ds)
          else (parseMembers fuel (d :: ds)).map fun p => (JVal.obj p.1, p.2)
      else if c = '-' then
        match takeDigits cs with
        | ([], _) => none
        | (ds, r) => some (.num (-(digitsToNat ds : Int)), r)
      else if isDigit c then
        let p := takeDigits (c :: cs)
        some (.num ((digitsToNat p.1 : Nat) : Int), p.2)
      else none

/-- Parse the elements of a non-empty array, fuel-bounded. -/
def parseElems : Nat → List Char → Option (List JVal × List Char)
  | 0, _ => none
  | fuel + 1, input =>
    match parseVal fuel input with
    | none => none
    | some (v, rest) =>
      match skipWs rest with
      | [] => none
      | c :: cs =>
        if c = ',' then (parseElems fuel cs).map fun p => (v :: p.1, p.2)
        else if c = ']' then some ([v], cs)
        else none

/-- Parse the members of a non-empty object, fuel-bounded. -/
def parseMembers : Nat → List Char → Option (List (List Char × JVal) × List Char)
  | 0, _ => none
  | fuel + 1, input =>
    match skipWs input with
    | [] => none
    | c :: cs =>
      if c = '"' then
        match parseStrBody cs with
        | none => none
        | some (k, rest1) =>
          match skipWs rest1 with
          | [] => none
          | c2 :: cs2 =>
            if c2 = ':' then
              match parseVal fuel cs2 with
              | none => none
              | some (v, rest3) =>
                match skipWs rest3 with
                | [] => none
                | c3 :: cs3 =>
                  if c3 = ',' then
                    (parseMembers fuel cs3).map fun p => ((k, v) :: p.1, p.2)
                  else if c3 = rbrace then some ([(k, v)], cs3)
                  else none
            else none
      else none
end

/-- Top-level `json.load` / `json.loads`: parse one value and require
only trailing whitespace after it. -/
def json_loads (s : String) : Option JVal :=
  match parseVal (2 * s.data.length + 2) s.data with
  | some (v, rest) => if (skipWs rest).isEmpty then some v else none
  | none => none

/-! ## MD5 (RFC 1321), as `hashlib.md5(url.encode()).hexdigest()` uses it -/

/-- Truncate to a 32-bit word. -/
def w32 (x : Nat) : Nat := x % 4294967296

/-- Bitwise complement on a 32-bit word. -/
def wNot (x : Nat) : Nat := 4294967295 - x

/-- Left rotation of a 32-bit word. -/
def rotl (x s : Nat) : Nat := w32 ((x <<< s) ||| (x >>> (32 - s)))

/-- Per-round additive constants, floor(2^32 * abs(sin(i + 1))). -/
def md5K : List Nat :=
  [3614090360, 3905402710, 606105819, 3250441966, 4118548399, 1200080426, 2821735955, 4249261313,
  1770035416, 2336552879, 4294925233, 2304563134, 1804603682, 4254626195, 2792965006, 1236535329,
  4129170786, 3225465664, 643717713, 3921069994, 3593408605, 38016083, 3634488961, 3889429448,
  568446438, 3275163606, 4107603335, 1163531501, 2850285829, 4243563512, 1735328473, 2368359562,
  4294588738, 2272392833, 1839030562, 4259657740, 2763975236, 1272893353, 4139469664, 3200236656,
  681279174, 3936430074, 3572445317, 76029189, 3654602809, 3873151461, 530742520, 3299628645,
  4096336452, 1126891415, 2878612391, 4237533241, 1700485571, 2399980690, 4293915773, 2240044497,
  1873313359, 4264355552, 2734768916, 1309151649, 4149444226, 3174756917, 718787259, 3951481745]

/-- Per-round left-rotation amounts. -/
def md5S : List Nat :=
  [7, 12, 17, 22, 7, 12, 17, 22, 7, 12, 17, 22, 7, 12, 17, 22,
  5, 9, 14, 20, 5, 9, 14, 20, 5, 9, 14, 20, 5, 9, 14, 20,
  4, 11, 16, 23, 4, 11, 16, 23, 4, 11, 16, 23, 4, 11, 16, 23,
  6, 10, 15, 21, 6, 10, 15, 21, 6, 10, 15, 21, 6, 10, 15, 21]

/-- One MD5 round applied to the running state, for round index `i` and
message words `ws`. -/
def md5Step (ws : List Nat) (st : Nat × Nat × Nat × Nat) (i : Nat) : Nat × Nat × Nat × Nat :=
  let a := st.1
  let b := st.2.1
  let c := st.2.2.1
  let d := st.2.2.2
  let fg : Nat × Nat :=
    if i < 16 then ((b &&& c) ||| (wNot b &&& d), i)
    else if i < 32 then ((d &&& b) ||| (wNot d &&& c), (5 * i + 1) % 16)
    else if i < 48 then (b ^^^ c ^^^ d, (3 * i + 5) % 16)
    else (c ^^^ (b ||| wNot d), (7 * i) % 16)
  let f := w32 (fg.1 + a + md5K.getD i 0 + ws.getD fg.2 0)
  (d, w32 (b + rotl f (md5S.getD i 0)), b, c)

/-- Compress one 16-word block into the state. -/
def md5Compress (st : Nat × Nat × Nat × Nat) (ws : List Nat) : Nat × Nat × Nat × Nat :=
  let r := (List.range 64).foldl (md5Step ws) st
  (w32 (st.1 + r.1), w32 (st.2.1 + r.2.1), w32 (st.2.2.1 + r.2.2.1), w32 (st.2.2.2 + r.2.2.2))

/-- Pack bytes into little-endian 32-bit words. -/
def toWords : List Nat → List Nat
  | b0 :: b1 :: b2 :: b3 :: rest =>
    (b0 + 256 * b1 + 65536 * b2 + 16777216 * b3) :: toWords rest
  | _ => []

/-- Split a padded message into 16-word blocks, fuel-bounded. -/
def toBlocks : Nat → List Nat → List (List Nat)
  | 0, _ => []
  | _ + 1, [] => []
  | fuel + 1, bytes => toWords (bytes.take 64) :: toBlocks fuel (bytes.drop 64)

/-- MD5 padding: a 1 bit, zeros to 56 mod 64 bytes, then the bit length
as a little-endian 64-bit quantity. -/
def md5Pad (msg : List Nat) : List Nat :=
  let len := msg.length
  let bitLen := (8 * len) % 18446744073709551616
  msg ++ 128 :: List.replicate ((119 - len % 64) % 64) 0 ++
    [bitLen % 256, bitLen / 256 % 256, bitLen / 65536 % 256, bitLen / 16777216 % 256,
     bitLen / 4294967296 % 256, bitLen / 1099511627776 % 256,
     bitLen / 281474976710656 % 256, bitLen / 72057594037927936 % 256]

/-- MD5 digest of a byte sequence, as the 16 output bytes. -/
def md5Digest (msg : List Nat) : List Nat :=
  let padded := md5Pad msg
  let st := (toBlocks (padded.length + 1) padded).foldl md5Compress
    (1732584193, 4023233417, 2562383102, 271733878)
  [st.1 % 256, st.1 / 256 % 256, st.1 / 65536 % 256, st.1 / 16777216 % 256,
   st.2.1 % 256, st.2.1 / 256 % 256, st.2.1 / 65536 % 256, st.2.1 / 16777216 % 256,
   st.2.2.1 % 256, st.2.2.1 / 256 % 256, st.2.2.1 / 65536 % 256, st.2.2.1 / 16777216 % 256,
   st.2.2.2 % 256, st.2.2.2 / 256 % 256, st.2.2.2 / 65536 % 256, st.2.2.2 / 16777216 % 256]

/-- Lowercase hexadecimal digit characters. -/
def hexChars : List Char := "0123456789abcdef".data

/-- Lowercase hexadecimal digit for a nibble. -/
def hexDigit (d : Nat) : Char := hexChars.getD (d % 16) '0'

/-- Two-digit lowercase hexadecimal form of each byte, concatenated. -/
def bytesToHex (bs : List Nat) : List Char :=
  (bs.map (fun b => [hexDigit (b / 16), hexDigit b])).flatten

/-- Model of `hashlib.md5(s.encode()).hexdigest()`.  The URLs hashed in
this program are ASCII, where UTF-8 bytes coincide with code points. -/
def md5hex (s : String) : String := ⟨bytesToHex (md5Digest (s.data.map Char.toNat))⟩

/-! ## Environment model: filesystem, time, network -/

/-- One on-disk file: its content and its last-modified time
(`os.path.getmtime`). -/
structure FSFile where
  content : String
  mtime : Int
deriving DecidableEq

/-- Filesystem state visible to the program: whether the cache directory
exists, the files (path, content, mtime), and fault flags for the two
I/O operations the program performs on cache files (an `IOError` on
opening for read, an `OSError` on opening for write). -/
structure FS where
  cacheDirExists : Bool
  files : List (String × FSFile)
  readFails : Bool
  writeFails : Bool
deriving DecidableEq

/-- Look a path up in the filesystem. -/
def FS.lookup (fs : FS) (p : String) : Option FSFile :=
  (fs.files.find? (fun e => e.1 == p)).map Prod.snd

/-- Create or overwrite a file with content `c` at modification time `t`. -/
def FS.write (fs : FS) (p c : String) (t : Int) : FS :=
  { fs with files := (p, ⟨c, t⟩) :: fs.files }

/-- Outcome of `requests.get(url, timeout=30)` followed by
`raise_for_status()`: a success body, or one of the request faults, each
carrying the text `str(e)` of the raised exception. -/
inductive NetOutcome where
  | ok (body : String)
  | timeout (detail : String)
  | connError (detail : String)
  | httpError (detail : String)

/-- Ambient environment of one call: the current `time.time()` and the
network's response to each URL. -/
structure Env where
  now : Int
  net : String → NetOutcome

/-! ## The program (`main.py`), translated -/

/-- Line 15: `CACHE_DIR = "cache"`. -/
def CACHE_DIR : String := "cache"

/-- Line 16: `CACHE_DURATION = 3600`. -/
def CACHE_DURATION : Int := 3600

/-- Lines 18-21: create the cache directory when it is absent. -/
def ensure_cache_dir (fs : FS) : FS := { fs with cacheDirExists := true }

/-- Lines 23-28: cache path from the MD5 hex digest of the feed URL,
joined under the cache directory. -/
def get_cache_filename (feed_url : String) : String :=
  CACHE_DIR ++ "/" ++ "earthquake_data_" ++ md5hex feed_url ++ ".json"

/-- Lines 30-36: the cache file exists and its age, current time minus
modification time, is strictly below `CACHE_DURATION`. -/
def is_cache_valid (fs : FS) (now : Int) (cache_file : String) : Bool :=
  match fs.lookup cache_file with
  | none => false
  | some f => decide (now - f.mtime < CACHE_DURATION)

/-- Lines 52-73: the USGS feed table, in source order. -/
def feed_urls : List (String × String) :=
  [("significant_hour", "https://earthquake.usgs.gov/earthquakes/feed/v1.0/summary/significant_hour.geojson"),
   ("significant_day", "https://earthquake.usgs.gov/earthquakes/feed/v1.0/summary/significant_day.geojson"),
   ("significant_week", "https://earthquake.usgs.gov/earthquakes/feed/v1.0/summary/significant_week.geojson"),
   ("significant_month", "https://earthquake.usgs.gov/earthquakes/feed/v1.0/summary/significant_month.geojson"),
   ("4.5_hour", "https://earthquake.usgs.gov/earthquakes/feed/v1.0/summary/4.5_hour.geojson"),
   ("4.5_day", "https://earthquake.usgs.gov/earthquakes/feed/v1.0/summary/4.5_day.geojson"),
   ("4.5_week", "https://earthquake.usgs.gov/earthquakes/feed/v1.0/summary/4.5_week.geojson"),
   ("4.5_month", "https://earthquake.usgs.gov/earthquakes/feed/v1.0/summary/4.5_month.geojson"),
   ("2.5_hour", "https://earthquake.usgs.gov/earthquakes/feed/v1.0/summary/2.5_hour.geojson"),
   ("2.5_day", "https://earthquake.usgs.gov/earthquakes/feed/v1.0/summary/2.5_day.geojson"),
   ("2.5_week", "https://earthquake.usgs.gov/earthquakes/feed/v1.0/summary/2.5_week.geojson"),
   ("2.5_month", "https://earthquake.usgs.gov/earthquakes/feed/v1.0/summary/2.5_month.geojson"),
   ("1.0_hour", "https://earthquake.usgs.gov/earthquakes/feed/v1.0/summary/1.0_hour.geojson"),
   ("1.0_day", "https://earthquake.usgs.gov/earthquakes/feed/v1.0/summary/1.0_day.geojson"),
   ("1.0_week", "https://earthquake.usgs.gov/earthquakes/feed/v1.0/summary/1.0_week.geojson"),
   ("1.0_month", "https://earthquake.usgs.gov/earthquakes/feed/v1.0/summary/1.0_month.geojson"),
   ("all_hour", "https://earthquake.usgs.gov/earthquakes/feed/v1.0/summary/all_hour.geojson"),
   ("all_day", "https://earthquake.usgs.gov/earthquakes/feed/v1.0/summary/all_day.geojson"),
   ("all_week", "https://earthquake.usgs.gov/earthquakes/feed/v1.0/summary/all_week.geojson"),
   ("all_month", "https://earthquake.usgs.gov/earthquakes/feed/v1.0/summary/all_month.geojson")]

/-- Dictionary lookup `feed_urls[feed_type]` guarded by
`feed_type not in feed_urls`. -/
def lookupFeed (feed_type : String) : Option String :=
  (feed_urls.find? (fun e => e.1 == feed_type)).map Prod.snd

/-- The dictionary literal returned on an unknown feed type or a request
fault. -/
def errObj (msg : String) : JVal := .obj [("error".data, .str msg.data)]

/-- Observable outcome of one `fetch_earthquake_data` call: the returned
value, the filesystem afterwards, and whether `requests.get` ran. -/
structure FetchResult where
  ret : JVal
  fs : FS
  networkCalled : Bool

/-- Lines 38-102: `fetch_earthquake_data`, translated step by step.  The
`Except` layer carries an uncaught Python exception: the only statement
inside the `try` of lines 91-102 that can raise something other than
`requests.RequestException` is the cache-file write of lines 97-98,
whose `OSError` no handler catches.  The read of lines 83-88 has its
`IOError`/`JSONDecodeError` handler (fall through to the fetch), and
request faults are caught on line 101. -/
def fetch_earthquake_data (env : Env) (fs0 : FS) (feed_type : String) :
    Except String FetchResult :=
  let fs := ensure_cache_dir fs0
  match lookupFeed feed_type with
  | none => .ok ⟨errObj ("Invalid feed type: " ++ feed_type), fs, false⟩
  | some feed_url =>
    let cache_file := get_cache_filename feed_url
    let cached : Option JVal :=
      if is_cache_valid fs env.now cache_file then
        if fs.readFails then none
        else
          match fs.lookup cache_file with
          | some f => json_loads f.content
          | none => none
      else none
    match cached with
    | some d => .ok ⟨d, fs, false⟩
    | none =>
      match env.net feed_url with
      | .ok body =>
        match json_loads body with
        | none =>
          .ok ⟨errObj ("Failed to fetch earthquake data: response body is not valid JSON"),
            fs, true⟩
        | some d =>
          if fs.writeFails then .error ("OSError while writing " ++ cache_file)
          else .ok ⟨d, fs.write cache_file (json_dumps d) env.now, true⟩
      | .timeout detail => .ok ⟨errObj ("Failed to fetch earthquake data: " ++ detail), fs, true⟩
      | .connError detail => .ok ⟨errObj ("Failed to fetch earthquake data: " ++ detail), fs, true⟩
      | .httpError detail => .ok ⟨errObj ("Failed to fetch earthquake data: " ++ detail), fs, true⟩

/-- Lines 104-113: the fixed feed list. -/
def get_available_feeds : List String :=
  ["significant_hour", "significant_day", "significant_week", "significant_month",
   "4.5_hour", "4.5_day", "4.5_week", "4.5_month",
   "2.5_hour", "2.5_day", "2.5_week", "2.5_month",
   "1.0_hour", "1.0_day", "1.0_week", "1.0_month",
   "all_hour", "all_day", "all_week", "all_month"]

/-! ## Sample environments for witnesses and counterexamples -/

/-- True when the call escaped with an uncaught Python exception. -/
def isRaise : Except String FetchResult → Bool
  | .error _ => true
  | .ok _ => false

/-- A filesystem with no cache directory and no files. -/
def emptyFS : FS := ⟨false, [], false, false⟩

/-- A filesystem with the cache directory present and no files. -/
def fsDirOnly : FS := ⟨true, [], false, false⟩

/-- A filesystem whose cache-file writes raise `OSError`. -/
def fsWriteFault : FS := ⟨true, [], false, true⟩

/-- An environment at time 1000 answering every URL the same way. -/
def sampleEnv (o : NetOutcome) : Env := ⟨1000, fun _ => o⟩

/-- The catalog URL of the `all_day` feed. -/
def allDayURL : String :=
  "https://earthquake.usgs.gov/earthquakes/feed/v1.0/summary/all_day.geojson"

/-- A compact JSON response body, written without the space that
`json.dump` inserts after a key. -/
def bodyCompact : String := "\x7b\"a\":1\x7d"

/-- Head-of-input test used to state when a digit run ends. -/
def headNotDigit : List Char → Bool
  | [] => true
  | c :: _ => !isDigit c

mutual
/-- Recursion measure of a JSON value for the parser's fuel. -/
def vsize : JVal → Nat
  | .null => 1
  | .bool b => 1
  | .num n => 1
  | .str s => 1
  | .arr vs => 1 + esize vs
  | .obj ms => 1 + msize ms

/-- Recursion measure of an array's elements. -/
def esize : List JVal → Nat
  | [] => 0
  | v :: vs => 1 + vsize v + esize vs

/-- Recursion measure of an object's members. -/
def msize : List (List Char × JVal) → Nat
  | [] => 0
  | m :: ms => 1 + vsize m.2 + msize ms
end


/-! ## Model validation on concrete data -/

/-- The parser accepts the forms the program's data takes. -/
theorem json_loads_checks :
    json_loads "null" = some .null ∧
    json_loads " [1, -2] " = some (.arr [.num 1, .num (-2)]) ∧
    json_loads "\x7b\"a\":1\x7d" = some (.obj [(['a'], .num 1)]) ∧
    json_loads "truncated tex" = none :=
  ⟨rfl, rfl, rfl, rfl⟩

/-- The serializer writes Python's exact output format. -/
theorem json_dumps_checks :
    json_dumps (.obj [(['a'], .num 1)]) = "\x7b\"a\": 1\x7d" ∧
    json_dumps (.arr [.num 10, .str ['h', 'i'], .bool true]) = "[10, \"hi\", true]" :=
  ⟨rfl, rfl⟩

set_option maxRecDepth 20000 in
/-- The MD5 model matches the reference digests of RFC 1321. -/
theorem md5hex_checks :
    md5hex "" = "d41d8cd98f00b204e9800998ecf8427e" ∧
    md5hex "abc" = "900150983cd24fb0d6963f7d28e17f72" := by
  constructor <;> decide

/-! ## Helper lemmas -/

/-- Writing a file makes it the one found at its path. -/
theorem FS.lookup_write_self (fs : FS) (p c : String) (t : Int) :
    (fs.write p c t).lookup p = some ⟨c, t⟩ := by
  simp [FS.write, FS.lookup, List.find?]

/-- Writing preserves the fault flags and the cache-directory marker. -/
theorem FS.write_flags (fs : FS) (p c : String) (t : Int) :
    (fs.write p c t).readFails = fs.readFails ∧
    (fs.write p c t).writeFails = fs.writeFails ∧
    (fs.write p c t).cacheDirExists = fs.cacheDirExists := by
  simp [FS.write]

/-- Creating the cache directory is the identity once it exists. -/
theorem ensure_cache_dir_idem (fs : FS) (h : fs.cacheDirExists = true) :
    ensure_cache_dir fs = fs := by
  cases fs
  simp_all [ensure_cache_dir]

/-- Creating the cache directory never touches the files or the flags. -/
theorem ensure_cache_dir_fields (fs : FS) :
    (ensure_cache_dir fs).files = fs.files ∧
    (ensure_cache_dir fs).readFails = fs.readFails ∧
    (ensure_cache_dir fs).writeFails = fs.writeFails ∧
    (ensure_cache_dir fs).lookup = fs.lookup := by
  simp [ensure_cache_dir, FS.lookup, funext_iff]


/-! ## Claim C1: cache validity -/

/-- C1.  A cache entry is valid exactly when the file exists and its age,
current time minus modification time, is strictly below the TTL of 3600
seconds; a file whose modification time is exactly `now - 3600` is
expired.  This characterizes `is_cache_valid` for every path and time. -/
theorem c1_cache_valid_iff (fs : FS) (now : Int) (p : String) :
    (is_cache_valid fs now p = true ↔
      ∃ f, fs.lookup p = some f ∧ now - f.mtime < CACHE_DURATION) ∧
    (∀ f, fs.lookup p = some f → f.mtime = now - CACHE_DURATION →
      is_cache_valid fs now p = false) := by
  constructor
  · unfold is_cache_valid
    cases h : fs.lookup p <;> simp [h]
  · intro f hf hm
    unfold is_cache_valid
    rw [hf]
    simp [hm]

/-- Witness for C1 at a concrete state: a file of age exactly 3600 is
expired, and one of age 3599 is valid. -/
theorem c1_cache_valid_iff_witness :
    is_cache_valid ⟨true, [("cache/x.json", ⟨"null", 0⟩)], false, false⟩ 3600 "cache/x.json"
      = false ∧
    is_cache_valid ⟨true, [("cache/x.json", ⟨"null", 1⟩)], false, false⟩ 3600 "cache/x.json"
      = true := by
  constructor
  · exact (c1_cache_valid_iff ⟨true, [("cache/x.json", ⟨"null", 0⟩)], false, false⟩
      3600 "cache/x.json").2 ⟨"null", 0⟩ (by rfl) (by decide)
  · exact ((c1_cache_valid_iff ⟨true, [("cache/x.json", ⟨"null", 1⟩)], false, false⟩
      3600 "cache/x.json").1).2 ⟨⟨"null", 1⟩, by constructor <;> decide⟩

/-! ## Claim C7: the feed list -/

/-- C7.  `get_available_feeds` is the fixed list of the 20 catalog keys
in table order, and every listed identifier resolves in the catalog, so
the invalid-feed-type branch of `fetch_earthquake_data` is unreachable
for them. -/
theorem c7_available_feeds_spec :
    get_available_feeds = feed_urls.map Prod.fst ∧
    get_available_feeds.length = 20 ∧
    ∀ ft ∈ get_available_feeds, (lookupFeed ft).isSome := by decide

/-! ## Claim C8: cache filename shape -/

/-- Hex encoding doubles the length. -/
theorem bytesToHex_length (bs : List Nat) : (bytesToHex bs).length = 2 * bs.length := by
  induction bs with
  | cons b tl ih => simp [bytesToHex] at ih ⊢; omega
  | nil => rfl

/-- The MD5 digest always has 16 bytes. -/
theorem md5Digest_length (msg : List Nat) : (md5Digest msg).length = 16 := rfl

/-- Hex digits come from the hex alphabet. -/
theorem hexDigit_mem (d : Nat) : hexDigit d ∈ hexChars := by
  have h : d % 16 < 16 := Nat.mod_lt _ (by norm_num)
  unfold hexDigit
  generalize d % 16 = k at h ⊢
  interval_cases k <;> decide

/-- Every character of a hex encoding is a hex digit. -/
theorem bytesToHex_mem (bs : List Nat) (c : Char) (hc : c ∈ bytesToHex bs) :
    c ∈ hexChars := by
  simp only [bytesToHex, List.mem_flatten, List.mem_map] at hc
  obtain ⟨l, ⟨b, _, rfl⟩, hcl⟩ := hc
  have hcl2 : c = hexDigit (b / 16) ∨ c = hexDigit b := by simpa using hcl
  rcases hcl2 with rfl | rfl <;> exact hexDigit_mem _

/-- C8.  The cache filename is a pure function of the URL alone: it is
the fixed path shape around the MD5 hex digest, the digest always has 32
characters, every character is a lowercase hex digit, and equal URLs
always give equal paths. -/
theorem c8_cache_filename_shape (u : String) :
    get_cache_filename u = CACHE_DIR ++ "/" ++ "earthquake_data_" ++ md5hex u ++ ".json" ∧
    (md5hex u).length = 32 ∧
    (∀ c ∈ (md5hex u).data, c ∈ hexChars) ∧
    (∀ u', u' = u → get_cache_filename u' = get_cache_filename u) := by
  refine ⟨rfl, ?_, ?_, fun u' h => h ▸ rfl⟩
  · show (bytesToHex (md5Digest (u.data.map Char.toNat))).length = 32
    rw [bytesToHex_length, md5Digest_length]
  · exact fun c hc => bytesToHex_mem _ c hc

/-! ## Claim C9: distinct feeds get distinct cache files -/

set_option maxRecDepth 1000000 in
/-- C9.  The 20 catalog URLs are pairwise distinct and their MD5-derived
cache paths are pairwise distinct, so no two feed identifiers share a
cache file. -/
theorem c9_cache_files_distinct :
    (feed_urls.map Prod.snd).Nodup ∧
    ((feed_urls.map Prod.snd).map get_cache_filename).Nodup := by decide

/-! ## Claim C2: unknown feed type -/

set_option maxRecDepth 1000000 in
/-- C2 counterexample.  On an unknown feed type the call does return the
invalid-feed error object with no network call and no cache file touched,
but it is false that no filesystem activity happens: `ensure_cache_dir`
runs on line 49 before the feed-type check of line 75, so the cache
directory is created even for `"bogus_feed"`. -/
theorem c2_counterexample :
    fetch_earthquake_data (sampleEnv (.connError "boom")) emptyFS "bogus_feed" =
      .ok ⟨errObj "Invalid feed type: bogus_feed", ⟨true, [], false, false⟩, false⟩ ∧
    emptyFS.cacheDirExists = false := by
  exact ⟨rfl, rfl⟩

/-- C2 amended.  For every feed type outside the catalog the call
returns exactly the invalid-feed error object, performs no network call,
reads and writes no cache file, but does ensure the cache directory
exists (creating it when absent). -/
theorem c2_invalid_feed_amended (env : Env) (fs : FS) (ft : String)
    (h : lookupFeed ft = none) :
    fetch_earthquake_data env fs ft =
      .ok ⟨errObj ("Invalid feed type: " ++ ft), ensure_cache_dir fs, false⟩ ∧
    (ensure_cache_dir fs).files = fs.files ∧
    (ensure_cache_dir fs).cacheDirExists = true := by
  refine ⟨?_, rfl, rfl⟩
  simp [fetch_earthquake_data, h]

/-- Witness for the amended C2 at a concrete unknown feed type. -/
theorem c2_invalid_feed_amended_witness :
    lookupFeed "bogus_feed" = none ∧
    fetch_earthquake_data (sampleEnv (.connError "boom")) emptyFS "bogus_feed" =
      .ok ⟨errObj ("Invalid feed type: " ++ "bogus_feed"), ensure_cache_dir emptyFS, false⟩ :=
  ⟨rfl, (c2_invalid_feed_amended (sampleEnv (.connError "boom")) emptyFS "bogus_feed" rfl).1⟩

/-! ## Claim C3: no unhandled fault -/

set_option maxRecDepth 1000000 in
/-- C3 counterexample.  A cache-file write failure is an environment
outcome under which the call does raise: with a valid feed, a cache
miss, a successful fetch of a parseable body, and a failing write, the
`OSError` from `open(cache_file, "w")` on line 97 is not caught by the
`except requests.RequestException` handler on line 101 and escapes. -/
theorem c3_counterexample :
    isRaise (fetch_earthquake_data (sampleEnv (.ok "null")) fsWriteFault "all_day") = true := by
  rfl

/-- C3 amended.  Whenever the cache-file write does not fail, every call
returns a structured result value (data or an error object) and never
raises, whatever the feed type, cache state, read faults, and network
outcome are; only a failing cache write escapes as an exception. -/
theorem c3_no_raise_amended (env : Env) (fs : FS) (ft : String)
    (h : fs.writeFails = false) :
    isRaise (fetch_earthquake_data env fs ft) = false := by
  simp only [fetch_earthquake_data]
  split
  · rfl
  · split
    · rfl
    · split
      · split
        · rfl
        · simp [isRaise, ensure_cache_dir, h]
      · rfl
      · rfl
      · rfl

set_option maxRecDepth 1000000 in
/-- Witness for the amended C3 at a concrete healthy environment. -/
theorem c3_no_raise_amended_witness :
    fsDirOnly.writeFails = false ∧
    isRaise (fetch_earthquake_data (sampleEnv (.ok "null")) fsDirOnly "all_day") = false :=
  ⟨rfl, c3_no_raise_amended (sampleEnv (.ok "null")) fsDirOnly "all_day" rfl⟩

/-! ## Claim C10: network failure leaves the cache untouched -/

/-- C10.  For a valid feed identifier, when the network would fail
(timeout, connection error, non-success status), every execution — a
cache miss, a fresh-but-unreadable file, a fresh-but-unparseable file,
or even a cache hit that never reaches the network — returns normally
with the file list exactly as it was before the call, and whenever the
network fetch was actually attempted the return value is the
descriptive error object: no cache file is written or modified. -/
theorem c10_net_failure_preserves_cache (env : Env) (fs : FS) (ft url detail : String)
    (hft : lookupFeed ft = some url)
    (hnet : env.net url = .timeout detail ∨ env.net url = .connError detail ∨
      env.net url = .httpError detail) :
    ∃ r, fetch_earthquake_data env fs ft = .ok r ∧
      r.fs = ensure_cache_dir fs ∧ r.fs.files = fs.files ∧
      (r.networkCalled = true →
        r.ret = errObj ("Failed to fetch earthquake data: " ++ detail)) := by
  cases hv : is_cache_valid (ensure_cache_dir fs) env.now (get_cache_filename url) with
  | false =>
    rcases hnet with h | h | h <;>
      exact ⟨⟨errObj ("Failed to fetch earthquake data: " ++ detail), ensure_cache_dir fs,
        true⟩, by simp [fetch_earthquake_data, hft, hv, h], rfl, rfl, fun _ => rfl⟩
  | true =>
    cases hrf : (ensure_cache_dir fs).readFails with
    | true =>
      rcases hnet with h | h | h <;>
        exact ⟨⟨errObj ("Failed to fetch earthquake data: " ++ detail), ensure_cache_dir fs,
          true⟩, by simp [fetch_earthquake_data, hft, hv, hrf, h], rfl, rfl, fun _ => rfl⟩
    | false =>
      cases hlk : (ensure_cache_dir fs).lookup (get_cache_filename url) with
      | none =>
        rcases hnet with h | h | h <;>
          exact ⟨⟨errObj ("Failed to fetch earthquake data: " ++ detail), ensure_cache_dir fs,
            true⟩, by simp [fetch_earthquake_data, hft, hv, hrf, hlk, h], rfl, rfl,
            fun _ => rfl⟩
      | some f =>
        cases hjl : json_loads f.content with
        | none =>
          rcases hnet with h | h | h <;>
            exact ⟨⟨errObj ("Failed to fetch earthquake data: " ++ detail),
              ensure_cache_dir fs, true⟩,
              by simp [fetch_earthquake_data, hft, hv, hrf, hlk, hjl, h], rfl, rfl,
              fun _ => rfl⟩
        | some dd =>
          exact ⟨⟨dd, ensure_cache_dir fs, false⟩,
            by simp [fetch_earthquake_data, hft, hv, hrf, hlk, hjl], rfl, rfl,
            by intro hcall; simp at hcall⟩

set_option maxRecDepth 1000000 in
/-- Witness for C10 in the previously delicate stratum: a cache file for
`all_day` that is fresh (age 10 seconds) but unparseable, with the
network timing out — the call must fall through to the fetch, return the
error object, and leave the corrupt file untouched. -/
theorem c10_net_failure_preserves_cache_witness :
    lookupFeed "all_day" = some allDayURL ∧
    (sampleEnv (.timeout "timed out")).net allDayURL = .timeout "timed out" ∧
    (∃ r, fetch_earthquake_data (sampleEnv (.timeout "timed out"))
        ⟨true, [(get_cache_filename allDayURL, ⟨"truncated tex", 990⟩)], false, false⟩
        "all_day" = .ok r ∧
      r.fs = ensure_cache_dir
        ⟨true, [(get_cache_filename allDayURL, ⟨"truncated tex", 990⟩)], false, false⟩ ∧
      r.fs.files =
        (⟨true, [(get_cache_filename allDayURL, ⟨"truncated tex", 990⟩)], false,
          false⟩ : FS).files ∧
      (r.networkCalled = true →
        r.ret = errObj ("Failed to fetch earthquake data: " ++ "timed out"))) :=
  ⟨rfl, rfl,
    c10_net_failure_preserves_cache (sampleEnv (.timeout "timed out"))
      ⟨true, [(get_cache_filename allDayURL, ⟨"truncated tex", 990⟩)], false, false⟩
      "all_day" allDayURL "timed out" rfl (Or.inl rfl)⟩

/-! ## Claim C6: what a successful fetch persists -/

set_option maxRecDepth 1000000 in
/-- C6 counterexample.  The cache file does not hold the response body
verbatim: the code parses the body (line 94) and writes the
re-serialization `json.dump(data, f)` (line 98).  For the received body
written compactly, the persisted content carries the space `json.dump`
inserts after the key and so differs from the raw bytes received. -/
theorem c6_counterexample :
    fetch_earthquake_data (sampleEnv (.ok bodyCompact)) fsDirOnly "all_day" =
      .ok ⟨.obj [(['a'], .num 1)],
        fsDirOnly.write (get_cache_filename allDayURL) "\x7b\"a\": 1\x7d" 1000, true⟩ ∧
    "\x7b\"a\": 1\x7d" ≠ bodyCompact := by
  exact ⟨rfl, by decide⟩

/-- C6 amended.  On a successful fetch the call persists the
`json.dump` re-serialization of the parsed response body to the cache
path, overwriting any prior content, and returns the parsed structure;
the stored bytes are the serialization of the parsed structure, which
need not coincide with the raw bytes received. -/
theorem c6_cache_write_amended (env : Env) (fs : FS) (ft url body : String) (d : JVal)
    (hft : lookupFeed ft = some url)
    (hnet : env.net url = .ok body)
    (hj : json_loads body = some d)
    (hmiss : is_cache_valid (ensure_cache_dir fs) env.now (get_cache_filename url) = false)
    (hw : fs.writeFails = false) :
    fetch_earthquake_data env fs ft =
      .ok ⟨d, (ensure_cache_dir fs).write (get_cache_filename url) (json_dumps d) env.now,
        true⟩ ∧
    ((ensure_cache_dir fs).write (get_cache_filename url) (json_dumps d) env.now).lookup
        (get_cache_filename url) = some ⟨json_dumps d, env.now⟩ := by
  have hw2 : (ensure_cache_dir fs).writeFails = false := hw
  refine ⟨?_, FS.lookup_write_self ..⟩
  simp [fetch_earthquake_data, hft, hmiss, hnet, hj, hw2]

set_option maxRecDepth 1000000 in
/-- Witness for the amended C6 at the concrete compact body. -/
theorem c6_cache_write_amended_witness :
    lookupFeed "all_day" = some allDayURL ∧
    json_loads bodyCompact = some (.obj [(['a'], .num 1)]) ∧
    fetch_earthquake_data (sampleEnv (.ok bodyCompact)) fsDirOnly "all_day" =
      .ok ⟨.obj [(['a'], .num 1)],
        (ensure_cache_dir fsDirOnly).write (get_cache_filename allDayURL)
          (json_dumps (.obj [(['a'], .num 1)])) (sampleEnv (.ok bodyCompact)).now, true⟩ :=
  ⟨rfl, rfl,
    (c6_cache_write_amended (sampleEnv (.ok bodyCompact)) fsDirOnly "all_day" allDayURL
      bodyCompact (.obj [(['a'], .num 1)]) rfl rfl rfl rfl rfl).1⟩

/-! ## Claim C4: corrupted cache falls through to a fresh fetch -/

/-- C4.  When the cache file for a valid feed exists and is within the
TTL but cannot be read (`IOError`) or parsed (`JSONDecodeError`), no
error is surfaced for that condition: the call falls through to the
network fetch and, on success, overwrites the file with the fresh data
and returns it. -/
theorem c4_corrupt_cache_falls_through (env : Env) (fs : FS) (ft url body : String)
    (d : JVal) (f : FSFile)
    (hft : lookupFeed ft = some url)
    (hvalid : is_cache_valid (ensure_cache_dir fs) env.now (get_cache_filename url) = true)
    (hfile : (ensure_cache_dir fs).lookup (get_cache_filename url) = some f)
    (hbad : fs.readFails = true ∨ json_loads f.content = none)
    (hnet : env.net url = .ok body)
    (hj : json_loads body = some d)
    (hw : fs.writeFails = false) :
    fetch_earthquake_data env fs ft =
      .ok ⟨d, (ensure_cache_dir fs).write (get_cache_filename url) (json_dumps d) env.now,
        true⟩ := by
  have hw2 : (ensure_cache_dir fs).writeFails = false := hw
  rcases hbad with hr | hp
  · have hr2 : (ensure_cache_dir fs).readFails = true := hr
    simp [fetch_earthquake_data, hft, hvalid, hr2, hnet, hj, hw2]
  · cases hrf : fs.readFails
    · have hr2 : (ensure_cache_dir fs).readFails = false := hrf
      simp [fetch_earthquake_data, hft, hvalid, hr2, hfile, hp, hnet, hj, hw2]
    · have hr2 : (ensure_cache_dir fs).readFails = true := hrf
      simp [fetch_earthquake_data, hft, hvalid, hr2, hnet, hj, hw2]

set_option maxRecDepth 1000000 in
/-- Witness for C4: a fresh-in-TTL but unparseable cache file for
`all_day`, a healthy network, and the resulting overwrite. -/
theorem c4_corrupt_cache_falls_through_witness :
    is_cache_valid
      (ensure_cache_dir ⟨true, [(get_cache_filename allDayURL, ⟨"truncated tex", 990⟩)],
        false, false⟩) 1000 (get_cache_filename allDayURL) = true ∧
    json_loads "truncated tex" = none ∧
    fetch_earthquake_data (sampleEnv (.ok "null"))
      ⟨true, [(get_cache_filename allDayURL, ⟨"truncated tex", 990⟩)], false, false⟩
      "all_day" =
      .ok ⟨.null,
        (ensure_cache_dir ⟨true, [(get_cache_filename allDayURL, ⟨"truncated tex", 990⟩)],
          false, false⟩).write (get_cache_filename allDayURL) (json_dumps .null) 1000,
        true⟩ :=
  ⟨rfl, rfl,
    c4_corrupt_cache_falls_through (sampleEnv (.ok "null"))
      ⟨true, [(get_cache_filename allDayURL, ⟨"truncated tex", 990⟩)], false, false⟩
      "all_day" allDayURL "null" .null ⟨"truncated tex", 990⟩
      rfl rfl rfl (Or.inr rfl) rfl rfl rfl⟩

/-! ## Round trip: `json.load` recovers what `json.dump` wrote -/

/-- Properties of decimal digit characters. -/
theorem decDigit_facts (d : Nat) (h : d < 10) :
    isDigit (decDigit d) = true ∧ isWs (decDigit d) = false ∧ digitVal (decDigit d) = d ∧
    decDigit d ≠ 'n' ∧ decDigit d ≠ 't' ∧ decDigit d ≠ 'f' ∧ decDigit d ≠ '"' ∧
    decDigit d ≠ '[' ∧ decDigit d ≠ lbrace ∧ decDigit d ≠ '-' ∧
    decDigit d ≠ ']' ∧ decDigit d ≠ rbrace ∧ decDigit d ≠ ',' := by
  interval_cases d <;> exact (by decide)

/-- The fueled digit list agrees with `Nat.digits` once the fuel covers
the number. -/
theorem natDigitsLE_eq (fuel n : Nat) (h : n < fuel) :
    natDigitsLE fuel n = Nat.digits 10 n := by
  induction fuel generalizing n with
  | zero => omega
  | succ f ih =>
    by_cases h0 : n = 0
    · simp [h0, natDigitsLE]
    · rw [natDigitsLE, if_neg h0, ih (n / 10) ?_, ← Nat.digits_def' (by norm_num) ?_]
      · omega
      · have := Nat.div_lt_self (Nat.pos_of_ne_zero h0) (by norm_num : 1 < 10)
        omega

/-- Decimal notation is nonempty, starts with a digit character, and
consists solely of digit characters. -/
theorem natToDigits_spec (n : Nat) :
    (∃ d ds, natToDigits n = decDigit d :: ds ∧ d < 10) ∧
    ∀ c ∈ natToDigits n, ∃ d, d < 10 ∧ c = decDigit d := by
  unfold natToDigits
  by_cases h0 : n = 0
  · constructor
    · exact ⟨0, [], by rw [if_pos h0], by norm_num⟩
    · intro c hc
      rw [if_pos h0] at hc
      have h2 : c = decDigit 0 := by simpa using hc
      exact ⟨0, by norm_num, h2⟩
  · rw [if_neg h0, natDigitsLE_eq (n + 1) n (Nat.lt_succ_self n)]
    constructor
    · rcases hrev : (Nat.digits 10 n).reverse with _ | ⟨d, ds⟩
      · exfalso
        have : Nat.digits 10 n = [] := by
          have := congrArg List.reverse hrev
          simpa using this
        exact (Nat.digits_ne_nil_iff_ne_zero.mpr h0) this
      · refine ⟨d, ds.map decDigit, by simp [hrev], ?_⟩
        have hd : d ∈ Nat.digits 10 n := by
          have : d ∈ (Nat.digits 10 n).reverse := by simp [hrev]
          simpa using this
        exact Nat.digits_lt_base (by norm_num) hd
    · intro c hc
      simp only [List.mem_map, List.mem_reverse] at hc
      obtain ⟨d, hd, rfl⟩ := hc
      exact ⟨d, Nat.digits_lt_base (by norm_num) hd, rfl⟩

/-- Folds over equal-on-elements functions agree. -/
theorem foldl_congr_mem {α β : Type} (f g : α → β → α) :
    ∀ (l : List β) (a : α), (∀ x ∈ l, ∀ y, f y x = g y x) →
      List.foldl f a l = List.foldl g a l := by
  intro l
  induction l with
  | nil => intro a _; rfl
  | cons x xs ih =>
    intro a h
    simp only [List.foldl_cons]
    rw [h x (by simp), ih _ (fun x hx y => h x (by simp [hx]) y)]

/-- The digit-run value inverts decimal notation. -/
theorem digitsToNat_natToDigits (n : Nat) : digitsToNat (natToDigits n) = n := by
  unfold natToDigits
  by_cases h0 : n = 0
  · simp [h0, digitsToNat, digitVal, decDigit]
  · rw [if_neg h0, natDigitsLE_eq (n + 1) n (Nat.lt_succ_self n)]
    unfold digitsToNat
    rw [List.foldl_map]
    rw [foldl_congr_mem _ (fun a d => 10 * a + d) _ 0 ?_]
    · rw [List.foldl_reverse]
      have hfr : ∀ L : List Nat, List.foldr (fun x y => 10 * y + x) 0 L = Nat.ofDigits 10 L := by
        intro L
        induction L with
        | nil => simp [Nat.ofDigits_nil]
        | cons d L ih => simp [Nat.ofDigits_cons, ih]; omega
      rw [hfr, Nat.ofDigits_digits]
    · intro x hx y
      have hx10 : x < 10 := Nat.digits_lt_base (by norm_num) (by simpa using hx)
      rw [(decDigit_facts x hx10).2.2.1]

/-- A digit run followed by a non-digit splits exactly at the boundary. -/
theorem takeDigits_append (ds rest : List Char) (hds : ∀ c ∈ ds, isDigit c = true)
    (hrest : headNotDigit rest = true) : takeDigits (ds ++ rest) = (ds, rest) := by
  induction ds with
  | nil =>
    cases rest with
    | nil => rfl
    | cons c cs =>
      have : isDigit c = false := by simpa [headNotDigit] using hrest
      simp [takeDigits, this]
  | cons c cs ih =>
    have hc : isDigit c = true := hds c (by simp)
    simp [takeDigits, hc, ih (fun x hx => hds x (by simp [hx]))]

/-- Whitespace skipping passes a non-blank head through. -/
theorem skipWs_cons_neg (c : Char) (l : List Char) (h : isWs c = false) :
    skipWs (c :: l) = c :: l := by
  simp [skipWs, h]

/-- Whitespace skipping consumes a blank head. -/
theorem skipWs_cons_pos (c : Char) (l : List Char) (h : isWs c = true) :
    skipWs (c :: l) = skipWs l := by
  simp [skipWs, h]

/-- String bodies written by the serializer parse back exactly. -/
theorem parseStrBody_round (s rest : List Char) :
    parseStrBody (escapeStr s ++ '"' :: rest) = some (s, rest) := by
  induction s with
  | nil =>
    rw [parseStrBody.eq_def]
    simp [escapeStr]
  | cons c cs ih =>
    have hes : escapeStr (c :: cs) = escChar c ++ escapeStr cs := by
      simp [escapeStr]
    rw [hes, List.append_assoc]
    by_cases h1 : c = '"'
    · subst h1
      rw [show escChar '"' = ['\\', '"'] from rfl]
      rw [List.cons_append, List.cons_append, parseStrBody.eq_def]
      simp +decide [ih]
    · by_cases h2 : c = '\\'
      · subst h2
        rw [show escChar '\\' = ['\\', '\\'] from rfl]
        rw [List.cons_append, List.cons_append, parseStrBody.eq_def]
        simp +decide [ih]
      · rw [show escChar c = [c] from by simp [escChar, h1, h2]]
        rw [List.cons_append, List.nil_append, parseStrBody.eq_def]
        simp [h1, h2, ih]

/-- A leading blank does not change what a value parse returns. -/
theorem parseVal_ws_cons (fuel : Nat) (c : Char) (l : List Char) (h : isWs c = true) :
    parseVal fuel (c :: l) = parseVal fuel l := by
  cases fuel with
  | zero => rfl
  | succ f => rw [parseVal, parseVal, skipWs_cons_pos c l h]

/-- A leading blank does not change what an element-list parse returns. -/
theorem parseElems_ws_cons (fuel : Nat) (c : Char) (l : List Char) (h : isWs c = true) :
    parseElems fuel (c :: l) = parseElems fuel l := by
  cases fuel with
  | zero => rfl
  | succ f => rw [parseElems, parseElems, parseVal_ws_cons f c l h]

/-- A leading blank does not change what a member-list parse returns. -/
theorem parseMembers_ws_cons (fuel : Nat) (c : Char) (l : List Char) (h : isWs c = true) :
    parseMembers fuel (c :: l) = parseMembers fuel l := by
  cases fuel with
  | zero => rfl
  | succ f => rw [parseMembers, parseMembers, skipWs_cons_pos c l h]

/-- Serialized values start with a non-blank character that closes
neither an array nor an object. -/
theorem dumpV_head (v : JVal) :
    ∃ c cs, dumpV v = c :: cs ∧ isWs c = false ∧ c ≠ ']' ∧ c ≠ rbrace := by
  cases v with
  | null => refine ⟨'n', _, rfl, ?_, ?_, ?_⟩ <;> decide
  | bool b =>
    cases b
    · refine ⟨'f', _, rfl, ?_, ?_, ?_⟩ <;> decide
    · refine ⟨'t', _, rfl, ?_, ?_, ?_⟩ <;> decide
  | num n =>
    rw [show dumpV (.num n) = intToDigits n from by rw [dumpV]]
    by_cases hn : n < 0
    · exact ⟨'-', _, by rw [intToDigits, if_pos hn], by decide, by decide, by decide⟩
    · obtain ⟨d, ds, heq, hd⟩ := (natToDigits_spec n.toNat).1
      obtain ⟨_, hws, _, _, _, _, _, _, _, _, hbr1, hbr2, _⟩ := decDigit_facts d hd
      exact ⟨decDigit d, ds, by rw [intToDigits, if_neg hn, heq], hws, hbr1, hbr2⟩
  | str s =>
    exact ⟨'"', escapeStr s ++ ['"'], by rw [dumpV]; simp, by decide, by decide, by decide⟩
  | arr vs =>
    cases vs with
    | nil => exact ⟨'[', [']'], by rw [dumpV], by decide, by decide, by decide⟩
    | cons v vs =>
      exact ⟨'[', (dumpV v ++ dumpElems vs) ++ [']'], by rw [dumpV]; simp, by decide,
        by decide, by decide⟩
  | obj ms =>
    cases ms with
    | nil => exact ⟨lbrace, [rbrace], by rw [dumpV], by decide, by decide, by decide⟩
    | cons m ms =>
      exact ⟨lbrace, (dumpMember m ++ dumpMembers ms) ++ [rbrace], by rw [dumpV]; simp,
        by decide, by decide, by decide⟩

/-- Values have positive measure. -/
theorem vsize_pos (v : JVal) : 1 ≤ vsize v := by
  cases v <;> rw [vsize] <;> omega

/-- Decimal notation consists of digit characters. -/
theorem natToDigits_all_digits (n : Nat) : ∀ c ∈ natToDigits n, isDigit c = true := by
  intro c hc
  obtain ⟨d, hd, rfl⟩ := (natToDigits_spec n).2 c hc
  exact (decDigit_facts d hd).1

set_option synthInstance.maxHeartbeats 1000000 in
/-- Round trip at every sufficient fuel: parsing a serialized value,
element list, or member list consumes exactly the serialized text. -/
theorem parse_dump_aux (fuel : Nat) :
    (∀ v rest, vsize v ≤ fuel → headNotDigit rest = true →
      parseVal fuel (dumpV v ++ rest) = some (v, rest)) ∧
    (∀ v vs rest, esize (v :: vs) ≤ fuel →
      parseElems fuel (dumpV v ++ (dumpElems vs ++ ']' :: rest)) = some (v :: vs, rest)) ∧
    (∀ k v ms rest, msize ((k, v) :: ms) ≤ fuel →
      parseMembers fuel (dumpMember (k, v) ++ (dumpMembers ms ++ rbrace :: rest)) =
        some ((k, v) :: ms, rest)) := by
  induction fuel with
  | zero =>
    refine ⟨?_, ?_, ?_⟩
    · intro v rest hs _
      have := vsize_pos v
      omega
    · intro v vs rest hs
      rw [esize] at hs
      omega
    · intro k v ms rest hs
      rw [msize] at hs
      omega
  | succ f ih =>
    obtain ⟨ihV, ihE, ihM⟩ := ih
    refine ⟨?_, ?_, ?_⟩
    · intro v rest hsize hrest
      cases v with
      | null =>
        rw [show dumpV JVal.null ++ rest = 'n' :: 'u' :: 'l' :: 'l' :: rest from by
          rw [dumpV]; rfl]
        rw [parseVal, skipWs_cons_neg _ _ (by decide)]
        simp +decide
      | bool b =>
        cases b
        · rw [show dumpV (JVal.bool false) ++ rest = 'f' :: 'a' :: 'l' :: 's' :: 'e' :: rest
            from by rw [dumpV]; rfl]
          rw [parseVal, skipWs_cons_neg _ _ (by decide)]
          simp +decide
        · rw [show dumpV (JVal.bool true) ++ rest = 't' :: 'r' :: 'u' :: 'e' :: rest from by
            rw [dumpV]; rfl]
          rw [parseVal, skipWs_cons_neg _ _ (by decide)]
          simp +decide
      | str s =>
        rw [show dumpV (JVal.str s) ++ rest = '"' :: (escapeStr s ++ '"' :: rest) from by
          rw [dumpV]; simp]
        rw [parseVal, skipWs_cons_neg _ _ (by decide)]
        simp +decide [parseStrBody_round]
      | num n =>
        rw [show dumpV (JVal.num n) = intToDigits n from by rw [dumpV]]
        by_cases hn : n < 0
        · rw [show intToDigits n ++ rest = '-' :: (natToDigits n.natAbs ++ rest) from by
            rw [intToDigits, if_pos hn]; rfl]
          rw [parseVal, skipWs_cons_neg _ _ (by decide)]
          simp +decide
          rw [takeDigits_append _ _ (natToDigits_all_digits _) hrest]
          obtain ⟨d, ds, heq, hd⟩ := (natToDigits_spec n.natAbs).1
          rw [heq]
          simp
          rw [← heq, digitsToNat_natToDigits]
          omega
        · rw [show intToDigits n ++ rest = natToDigits n.toNat ++ rest from by
            rw [intToDigits, if_neg hn]]
          obtain ⟨d, ds, heq, hd⟩ := (natToDigits_spec n.toNat).1
          obtain ⟨g1, g2, g3, g4, g5, g6, g7, g8, g9, g10, g11, g12, g13⟩ :=
            decDigit_facts d hd
          rw [heq, List.cons_append, parseVal, skipWs_cons_neg _ _ g2]
          simp [g1, g4, g5, g6, g7, g8, g9, g10]
          rw [← List.cons_append, ← heq, takeDigits_append _ _ (natToDigits_all_digits _) hrest]
          simp
          rw [digitsToNat_natToDigits]
          have hcast : ((n.toNat : Int)) = n := Int.toNat_of_nonneg (by omega)
          rw [hcast]
      | arr vs =>
        cases vs with
        | nil =>
          rw [show dumpV (JVal.arr []) ++ rest = '[' :: ']' :: rest from by rw [dumpV]; rfl]
          rw [parseVal, skipWs_cons_neg _ _ (by decide)]
          simp +decide [skipWs]
        | cons v vs =>
          rw [show dumpV (JVal.arr (v :: vs)) ++ rest =
              '[' :: (dumpV v ++ (dumpElems vs ++ ']' :: rest)) from by rw [dumpV]; simp]
          rw [parseVal, skipWs_cons_neg _ _ (by decide)]
          simp +decide
          obtain ⟨c, cs, hd, hws, hbr1, hbr2⟩ := dumpV_head v
          rw [hd, List.cons_append, skipWs_cons_neg _ _ hws]
          simp +decide [hbr1]
          rw [← List.cons_append, ← hd]
          rw [ihE v vs rest (by rw [vsize] at hsize; omega)]
      | obj ms =>
        cases ms with
        | nil =>
          rw [show dumpV (JVal.obj []) ++ rest = lbrace :: rbrace :: rest from by
            rw [dumpV]; rfl]
          rw [parseVal, skipWs_cons_neg _ _ (by decide)]
          simp +decide [skipWs]
        | cons m ms =>
          obtain ⟨k, v⟩ := m
          rw [show dumpV (JVal.obj ((k, v) :: ms)) ++ rest =
              lbrace :: (dumpMember (k, v) ++ (dumpMembers ms ++ rbrace :: rest)) from by
            rw [dumpV]; simp]
          rw [parseVal, skipWs_cons_neg _ _ (by decide)]
          simp +decide
          rw [show dumpMember (k, v) ++ (dumpMembers ms ++ rbrace :: rest) =
              '"' :: (escapeStr k ++
                ('"' :: ':' :: ' ' :: dumpV v ++ (dumpMembers ms ++ rbrace :: rest))) from by
            rw [dumpMember]; simp]
          rw [skipWs_cons_neg _ _ (by decide)]
          simp +decide
          have hM := ihM k v ms rest (by rw [vsize] at hsize; omega)
          rw [dumpMember] at hM
          simpa using hM
    · intro v vs rest hsz
      cases vs with
      | nil =>
        rw [parseElems, show dumpElems ([] : List JVal) ++ ']' :: rest = ']' :: rest from by
          rw [dumpElems]; rfl]
        rw [ihV v (']' :: rest) (by rw [esize] at hsz; omega)
          (by simp +decide [headNotDigit])]
        simp +decide [skipWs]
      | cons v2 vs2 =>
        rw [parseElems, show dumpElems (v2 :: vs2) ++ ']' :: rest =
            ',' :: ' ' :: ((dumpV v2 ++ dumpElems vs2) ++ ']' :: rest) from by
          rw [dumpElems]; simp]
        rw [ihV v _ (by rw [esize] at hsz; omega) (by simp +decide [headNotDigit])]
        simp +decide [skipWs]
        rw [parseElems_ws_cons f _ _ (by decide)]
        have hE := ihE v2 vs2 rest (by rw [esize, esize] at hsz; rw [esize]; omega)
        simp at hE
        rw [hE]
    · intro k v ms rest hsz
      rw [parseMembers]
      rw [show dumpMember (k, v) ++ (dumpMembers ms ++ rbrace :: rest) =
          '"' :: (escapeStr k ++
            ('"' :: ':' :: ' ' :: dumpV v ++ (dumpMembers ms ++ rbrace :: rest))) from by
        rw [dumpMember]; simp]
      rw [skipWs_cons_neg _ _ (by decide)]
      simp +decide
      rw [parseStrBody_round]
      simp +decide [skipWs]
      have hnd : headNotDigit (dumpMembers ms ++ rbrace :: rest) = true := by
        cases ms with
        | nil => simp +decide [dumpMembers, headNotDigit]
        | cons m2 ms2 => rw [dumpMembers]; simp +decide [headNotDigit]
      rw [parseVal_ws_cons f _ _ (by decide)]
      have hV := ihV v (dumpMembers ms ++ rbrace :: rest)
        (by rw [msize] at hsz; simp at hsz; omega) hnd
      simp at hV
      rw [hV]
      cases ms with
      | nil =>
        rw [show dumpMembers ([] : List (List Char × JVal)) ++ rbrace :: rest =
            rbrace :: rest from by rw [dumpMembers]; rfl]
        simp +decide [skipWs]
      | cons m2 ms2 =>
        obtain ⟨k2, v2⟩ := m2
        rw [show dumpMembers ((k2, v2) :: ms2) ++ rbrace :: rest =
            ',' :: ' ' :: ((dumpMember (k2, v2) ++ dumpMembers ms2) ++ rbrace :: rest) from by
          rw [dumpMembers]; simp]
        simp +decide [skipWs]
        rw [parseMembers_ws_cons f _ _ (by decide)]
        have hM := ihM k2 v2 ms2 rest
          (by rw [msize, msize] at hsz; simp at hsz; rw [msize]; simp; omega)
        simp at hM
        rw [hM]

/-- The parser fuel a value needs is bounded by its serialized length. -/
theorem sizes_le_dump (fuel : Nat) :
    (∀ v, vsize v ≤ fuel → vsize v ≤ (dumpV v).length + 1) ∧
    (∀ vs, esize vs ≤ fuel → esize vs ≤ (dumpElems vs).length) ∧
    (∀ ms, msize ms ≤ fuel → msize ms ≤ (dumpMembers ms).length) := by
  induction fuel with
  | zero =>
    refine ⟨?_, ?_, ?_⟩
    · intro v hv
      have := vsize_pos v
      omega
    · intro vs hv
      cases vs with
      | nil => rw [esize]; omega
      | cons v2 vs2 =>
        rw [esize] at hv
        have := vsize_pos v2
        omega
    · intro ms hm
      cases ms with
      | nil => rw [msize]; omega
      | cons m2 ms2 =>
        rw [msize] at hm
        have := vsize_pos m2.2
        omega
  | succ f ih =>
    obtain ⟨ihV, ihE, ihM⟩ := ih
    refine ⟨?_, ?_, ?_⟩
    · intro v hv
      cases v with
      | null => rw [vsize, dumpV]; simp
      | bool b => cases b <;> (rw [vsize, dumpV]; simp)
      | num n => rw [vsize]; omega
      | str s => rw [vsize]; omega
      | arr vs =>
        rw [vsize] at hv ⊢
        cases vs with
        | nil => rw [esize, dumpV]; simp
        | cons v2 vs2 =>
          have h2 := ihE (v2 :: vs2) (by omega)
          rw [dumpV]
          rw [dumpElems] at h2
          simp at h2 ⊢
          omega
      | obj ms =>
        rw [vsize] at hv ⊢
        cases ms with
        | nil => rw [msize, dumpV]; simp
        | cons m2 ms2 =>
          have h2 := ihM (m2 :: ms2) (by omega)
          rw [dumpV]
          rw [dumpMembers] at h2
          simp at h2 ⊢
          omega
    · intro vs hv
      cases vs with
      | nil => rw [esize]; omega
      | cons v2 vs2 =>
        rw [esize] at hv ⊢
        have h1 := ihV v2 (by omega)
        have h2 := ihE vs2 (by omega)
        rw [dumpElems]
        simp
        omega
    · intro ms hm
      cases ms with
      | nil => rw [msize]; omega
      | cons m2 ms2 =>
        obtain ⟨k2, v2⟩ := m2
        rw [msize] at hm ⊢
        simp at hm ⊢
        have h1 := ihV v2 (by omega)
        have h2 := ihM ms2 (by omega)
        rw [dumpMembers, dumpMember]
        simp
        omega

/-- Round trip of the program's serialization through its parser: what
`json.dump` wrote, `json.load` reads back as the same structure. -/
theorem json_loads_json_dumps (v : JVal) : json_loads (json_dumps v) = some v := by
  unfold json_loads json_dumps
  have hlen : vsize v ≤ 2 * (dumpV v).length + 2 := by
    have := (sizes_le_dump (vsize v)).1 v le_rfl
    omega
  have h := (parse_dump_aux (2 * (dumpV v).length + 2)).1 v [] hlen (by decide)
  rw [List.append_nil] at h
  change (match parseVal (2 * (dumpV v).length + 2) (dumpV v) with
    | some (va, rest) => if (skipWs rest).isEmpty then some va else none
    | none => none) = some v
  rw [h]
  rfl

/-! ## Claim C5: repeated calls within the TTL -/

/-- C5.  After one call that actually fetched and obtained data for a
valid feed identifier, any later call for the same identifier within the
TTL window — whatever the network would now answer — returns the identical
structure, performs no network call, and leaves the state unchanged: the
cached bytes parse back to exactly what was fetched. -/
theorem c5_repeat_within_ttl (fs : FS) (t1 t2 : Int) (net1 net2 : String → NetOutcome)
    (ft url body : String) (d : JVal) (r : FetchResult)
    (hft : lookupFeed ft = some url)
    (hnet : net1 url = .ok body)
    (hj : json_loads body = some d)
    (hw : fs.writeFails = false) (hr : fs.readFails = false)
    (h1 : fetch_earthquake_data ⟨t1, net1⟩ fs ft = .ok r)
    (hcall : r.networkCalled = true)
    (httl : t2 - t1 < CACHE_DURATION) :
    r.ret = d ∧
    fetch_earthquake_data ⟨t2, net2⟩ r.fs ft = .ok ⟨d, r.fs, false⟩ := by
  have hw2 : (ensure_cache_dir fs).writeFails = false := hw
  simp only [fetch_earthquake_data, hft] at h1
  split at h1
  · injection h1 with h1
    rw [← h1] at hcall
    simp at hcall
  · simp [hnet, hj, hw2] at h1
    rw [← h1] at hcall ⊢
    refine ⟨rfl, ?_⟩
    have hdir : ((ensure_cache_dir fs).write (get_cache_filename url) (json_dumps d)
        t1).cacheDirExists = true := rfl
    have hv : is_cache_valid ((ensure_cache_dir fs).write (get_cache_filename url)
        (json_dumps d) t1) t2 (get_cache_filename url) = true := by
      unfold is_cache_valid
      rw [FS.lookup_write_self]
      simp only [CACHE_DURATION] at httl
      simp [CACHE_DURATION]
      omega
    have hrf : ((ensure_cache_dir fs).write (get_cache_filename url) (json_dumps d)
        t1).readFails = false := hr
    have hlook := FS.lookup_write_self (ensure_cache_dir fs) (get_cache_filename url)
      (json_dumps d) t1
    have hidem := ensure_cache_dir_idem _ hdir
    simp only [fetch_earthquake_data, hft]
    rw [hidem]
    simp [hv, hrf, hlook, json_loads_json_dumps]

set_option maxRecDepth 1000000 in
/-- Witness for C5: a concrete first fetch of `all_day` at time 0 and a
second call 10 seconds later that hits the cache even though the network
would now time out. -/
theorem c5_repeat_within_ttl_witness :
    fetch_earthquake_data ⟨0, fun _ => .ok "null"⟩ emptyFS "all_day" =
      .ok ⟨.null, (ensure_cache_dir emptyFS).write (get_cache_filename allDayURL)
        (json_dumps .null) 0, true⟩ ∧
    fetch_earthquake_data ⟨10, fun _ => .timeout "t"⟩
      ((ensure_cache_dir emptyFS).write (get_cache_filename allDayURL) (json_dumps .null) 0)
      "all_day" =
      .ok ⟨.null, (ensure_cache_dir emptyFS).write (get_cache_filename allDayURL)
        (json_dumps .null) 0, false⟩ :=
  ⟨rfl, (c5_repeat_within_ttl emptyFS 0 10 (fun _ => .ok "null") (fun _ => .timeout "t")
    "all_day" allDayURL "null" .null
    ⟨.null, (ensure_cache_dir emptyFS).write (get_cache_filename allDayURL)
      (json_dumps .null) 0, true⟩
    rfl rfl rfl rfl rfl rfl rfl (by decide)).2⟩

/-- Witness for C7 at the concrete identifier `all_day`. -/
theorem c7_available_feeds_spec_witness :
    "all_day" ∈ get_available_feeds ∧ (lookupFeed "all_day").isSome :=
  ⟨by decide, c7_available_feeds_spec.2.2 "all_day" (by decide)⟩

/-- Witness for C8 at the concrete `all_day` URL. -/
theorem c8_cache_filename_shape_witness :
    get_cache_filename allDayURL =
      CACHE_DIR ++ "/" ++ "earthquake_data_" ++ md5hex allDayURL ++ ".json" ∧
    (md5hex allDayURL).length = 32 :=
  ⟨(c8_cache_filename_shape allDayURL).1, (c8_cache_filename_shape allDayURL).2.1⟩
